import Mathlib

/-!
Verification development for the md2pdf converter pipeline
(src/server/md2pdf-converter.js and the near-duplicate variant src/unnamed/part_002).

The JavaScript source is shallowly embedded below: pure string/array logic is
translated to Lean functions; the module-level mutable `headings` array is made
explicit state; browser/pdf-lib behaviour that the source calls into
(document.getElementById, page arrays, indirect-reference allocation) is
modelled at the granularity the source uses it.  Pixel/point offsets (JS
floats) are modelled as rationals.
-/

namespace Md2Pdf

/-- JS `\w` character class (ASCII word characters), as used by the regex
`/[^\w]+/g` in `renderer.heading`. -/
def isWordChar (c : Char) : Bool :=
  c.isAlphanum || c = '_'

/-- Core of `raw.toLowerCase().replace(/[^\w]+/g, '-')`: every maximal run of
non-word characters collapses to a single '-'.  The boolean records whether the
previous character was part of a non-word run already replaced. -/
def slugAux : Bool → List Char → List Char
  | _, [] => []
  | inRun, c :: cs =>
    if isWordChar c then c :: slugAux false cs
    else if inRun then slugAux true cs
    else '-' :: slugAux true cs

/-- JS `toLowerCase()` on the strings the converter handles, applied character
by character (ASCII case mapping). -/
def lowerStr (s : String) : String :=
  ⟨s.data.map Char.toLower⟩

/-- Anchor-id derivation of `renderer.heading`:
`raw.toLowerCase().replace(/[^\w]+/g, '-')` (ASCII lower-casing). -/
def slug (raw : String) : String :=
  ⟨slugAux false (lowerStr raw).data⟩

/-- One heading record pushed onto the module-level `headings` array:
`headings.push({ level, text: raw, id })`. -/
structure HeadingRec where
  level : Nat
  text : String
  id : String
deriving DecidableEq

/-- A heading token as `marked` 9.1.6 hands it to
`renderer.heading(text, level, raw)`: `inlineHtml` is the first parameter
(the rendered inline HTML of the heading) and `raw` is the third — which
marked passes as `unescape(parseInline(token.tokens, textRenderer))`: the
heading's inline content rendered to markup-stripped, entity-unescaped plain
text.  It is NOT the heading's raw Markdown source; strong/em markers,
code-span backticks and link syntax are stripped by the TextRenderer. -/
structure HeadingToken where
  inlineHtml : String
  level : Nat
  raw : String
deriving DecidableEq

/-- An inline token of a heading's content, as marked's lexer produces it:
plain text, strong emphasis, emphasis, or a code span. -/
inductive Inline where
  | text (s : String)
  | strong (s : String)
  | em (s : String)
  | codespan (s : String)
deriving DecidableEq

/-- The Markdown source of one inline token (the markup the author wrote). -/
def inlineToSource : Inline → String
  | Inline.text s => s
  | Inline.strong s => "**" ++ s ++ "**"
  | Inline.em s => "*" ++ s ++ "*"
  | Inline.codespan s => "`" ++ s ++ "`"

/-- marked's TextRenderer on one inline token: the markup is stripped and
only the content survives (the TextRenderer's entity escape followed by
marked's `unescape` is the identity on the text itself). -/
def inlineToText : Inline → String
  | Inline.text s => s
  | Inline.strong s => s
  | Inline.em s => s
  | Inline.codespan s => s

/-- marked's default inline HTML renderer on one inline token. -/
def inlineToHtml : Inline → String
  | Inline.text s => s
  | Inline.strong s => "<strong>" ++ s ++ "</strong>"
  | Inline.em s => "<em>" ++ s ++ "</em>"
  | Inline.codespan s => "<code>" ++ s ++ "</code>"

/-- The raw Markdown source text of a heading's inline content. -/
def headingSource (l : List Inline) : String :=
  String.join (l.map inlineToSource)

/-- marked's plain-text rendering of a heading's inline content:
`unescape(parseInline(token.tokens, textRenderer))`. -/
def headingPlain (l : List Inline) : String :=
  String.join (l.map inlineToText)

/-- marked's inline HTML rendering of a heading's inline content:
`parseInline(token.tokens)`. -/
def headingHtml (l : List Inline) : String :=
  String.join (l.map inlineToHtml)

/-- The `HeadingToken` marked 9.1.6 hands to `renderer.heading(text, level,
raw)` for a heading whose inline content is `l`: `text` is the rendered
inline HTML and `raw` is the TextRenderer plain text — not the Markdown
source. -/
def mkHeadingToken (level : Nat) (l : List Inline) : HeadingToken :=
  { inlineHtml := headingHtml l, level := level, raw := headingPlain l }

/-- `renderer.heading` of src/server/md2pdf-converter.js lines 18-22: computes
the anchor id from the raw text, pushes `{ level, text: raw, id }` onto the
heading state, and returns the h-tag HTML built from the rendered inline
parameter. -/
def rendererHeading (st : List HeadingRec) (tok : HeadingToken) :
    List HeadingRec × String :=
  let id := slug tok.raw
  (st ++ [{ level := tok.level, text := tok.raw, id := id }],
    "<h" ++ toString tok.level ++ " id=\"" ++ id ++ "\">" ++ tok.inlineHtml
      ++ "</h" ++ toString tok.level ++ ">")

/-- JS `language || 'plaintext'` (note: the empty string is falsy in JS). -/
def langOrPlaintext : Option String → String
  | none => "plaintext"
  | some s => if s = "" then "plaintext" else s

/-- `renderer.code` of src/server/md2pdf-converter.js lines 25-29: wraps the
code content in pre/code tags with a language class.  The content is embedded
verbatim — this variant performs no HTML escaping. -/
def rendererCode_server (code : String) (language : Option String) : String :=
  "<pre><code class=\"language-" ++ lowerStr (langOrPlaintext language) ++ "\">"
    ++ code ++ "</code></pre>"

/-- The escape map of `renderer.code` in src/unnamed/part_002 lines 31-37,
applied per character (the regex `/[&<>"']/g` with the map callback). -/
def escapeChar (c : Char) : String :=
  if c = '&' then "&amp;"
  else if c = '<' then "&lt;"
  else if c = '>' then "&gt;"
  else if c = '"' then "&quot;"
  else if c = '\'' then "&#39;"
  else String.singleton c

/-- Single-pass replacement over a character list: each source character is
mapped once and the images are concatenated (replacement output is never
re-scanned), mirroring `code.replace(/[&<>"']/g, (char) => map[char])`. -/
def escapeList (l : List Char) : List Char :=
  l.flatMap (fun c => (escapeChar c).data)

/-- String form of the single-pass escape of src/unnamed/part_002 line 40. -/
def escapeHtml (code : String) : String :=
  ⟨escapeList code.data⟩

/-- `renderer.code` of src/unnamed/part_002 lines 26-43: same wrapper as the
server variant but the content is HTML-escaped first. -/
def rendererCode_v2 (code : String) (language : Option String) : String :=
  "<pre><code class=\"language-" ++ lowerStr (langOrPlaintext language) ++ "\">"
    ++ escapeHtml code ++ "</code></pre>"

/-- The five HTML-sensitive characters of the escape map. -/
def isHtmlSensitive (c : Char) : Bool :=
  c = '&' || c = '<' || c = '>' || c = '"' || c = '\''

/-- A block-level Markdown token as `marked.parse` walks it: a heading (with
its raw source text and its rendered inline HTML), a fenced code block, or any
other content (whose rendering touches no converter state). -/
inductive Block where
  | heading (tok : HeadingToken)
  | code (content : String) (language : Option String)
  | other (html : String)
deriving DecidableEq

/-- Dispatch of `marked.parse` into the custom renderer callbacks (server
variant's `renderer.code`); only `renderer.heading` touches the shared
`headings` state. -/
def renderBlock (st : List HeadingRec) : Block → List HeadingRec × String
  | Block.heading tok => rendererHeading st tok
  | Block.code c lang => (st, rendererCode_server c lang)
  | Block.other h => (st, h)

/-- `marked.parse(markdown)` over a tokenized document: renders each block in
document order, threading the module-level `headings` array through the
renderer callbacks, and concatenates the HTML. -/
def parseDoc (st : List HeadingRec) : List Block → List HeadingRec × String
  | [] => (st, "")
  | b :: bs =>
    let r := renderBlock st b
    let rest := parseDoc r.1 bs
    (rest.1, r.2 ++ rest.2)

/-- The heading tokens of a document, in document order. -/
def headingTokens (doc : List Block) : List HeadingToken :=
  doc.filterMap (fun b => match b with
    | Block.heading t => some t
    | _ => none)

/-- The heading record `renderer.heading` produces for a token. -/
def tokenToRec (t : HeadingToken) : HeadingRec :=
  { level := t.level, text := t.raw, id := slug t.raw }

/-- `headings.length = 0` in mdToPdf (src/server/md2pdf-converter.js line 97):
the module-level array is emptied, whatever a previous conversion left in it. -/
def resetHeadings (_prior : List HeadingRec) : List HeadingRec :=
  []

/-- The heading-capture part of `mdToPdf`: reset the shared `headings` array,
then parse the document (which repopulates it via `renderer.heading`).
`prior` is whatever state an earlier conversion in the same process left. -/
def mdToPdfHeadings (prior : List HeadingRec) (doc : List Block) :
    List HeadingRec :=
  (parseDoc (resetHeadings prior) doc).1

/-- An element of the rendered DOM carrying an id, with the vertical offset of
its bounding rect in the continuous layout (`window.scrollY + rect.top`). -/
structure DomElem where
  id : String
  top : ℚ
deriving DecidableEq

/-- `document.getElementById` as the DOM standard specifies it for the
browser the converter drives: the first element in tree order whose id
attribute matches (duplicate ids make all but the first unreachable). -/
def getElementById (dom : List DomElem) (id : String) : Option DomElem :=
  dom.find? (fun e => e.id == id)

/-- Top offset of the first DOM element with the given id (0 if absent). -/
def firstTop (dom : List DomElem) (id : String) : ℚ :=
  ((getElementById dom id).map DomElem.top).getD 0

/-- One entry of `bookmarkData` in `mdToPdf`:
`{ title: heading.text, level: heading.level, top: position.top }`. -/
structure Bookmark where
  title : String
  level : Nat
  top : ℚ
deriving DecidableEq

/-- The measurement loop of `mdToPdf` (src/server/md2pdf-converter.js lines
434-450): for each captured heading, look its anchor id up in the rendered
DOM; if found push a bookmark with the measured top, otherwise skip it. -/
def collectBookmarks : List HeadingRec → List DomElem → List Bookmark
  | [], _ => []
  | h :: hs, dom =>
    match getElementById dom h.id with
    | some e => { title := h.text, level := h.level, top := e.top }
        :: collectBookmarks hs dom
    | none => collectBookmarks hs dom

/-- A page of the pdf-lib document: its indirect reference and
`page.getHeight()`. -/
structure PdfPage where
  ref : Nat
  height : ℚ
deriving DecidableEq

/-- One outline node as `addBookmarksToPdf` assigns it: Title, Parent, the
page reference and top coordinate of the `[page.ref, XYZ, null, pageHeight,
null]` destination, and the optional Prev/Next sibling references. -/
structure OutlineItem where
  selfRef : Nat
  title : String
  parent : Nat
  destPage : Nat
  destTop : ℚ
  prev : Option Nat
  next : Option Nat
deriving DecidableEq

/-- The outline root dictionary: First/Last child references and Count. -/
structure OutlineRoot where
  selfRef : Nat
  first : Nat
  last : Nat
  count : Nat
deriving DecidableEq

/-- The pdf-lib document state `addBookmarksToPdf` manipulates: the page
array, the catalog's Outlines entry, the attached outline objects, and the
indirect-reference allocator behind `context.nextRef()`. -/
structure PdfDoc where
  pages : List PdfPage
  catalogOutlines : Option Nat
  outline : Option (OutlineRoot × List OutlineItem)
  nextFree : Nat
deriving DecidableEq

/-- JS array indexing `pages[i]` with a possibly negative index: a negative or
out-of-range index yields `undefined`, on which the subsequent `.ref` access
throws — modelled as `none`. -/
def listGetInt {α : Type} (l : List α) (i : Int) : Option α :=
  if i < 0 then none else l.get? i.toNat

/-- Page-index computation of the server variant (src/server/md2pdf-converter.js
lines 57-58): `Math.floor(bookmark.top / 900)` then
`Math.min(pageNum, pages.length - 1)` — no lower clamp. -/
def locateIdx_server (top : ℚ) (pageCount : Nat) : Int :=
  min ⌊top / 900⌋ ((pageCount : Int) - 1)

/-- Page-index computation of src/unnamed/part_002 lines 228-230:
`Math.floor(bookmark.top / 841.89)` then
`Math.min(Math.max(0, pageNum), pages.length - 1)`. -/
def locateIdx_v2 (top : ℚ) (pageCount : Nat) : Int :=
  min (max 0 ⌊top / (84189 / 100)⌋) ((pageCount : Int) - 1)

/-- The page-index formula as the specification words it: floor of the offset
over the page height, clamped to the range 0..pageCount-1.  (Stated from the
spec for refinement comparison with the two source locators.) -/
def locateSpec (top pageHeightPx : ℚ) (pageCount : Nat) : Int :=
  max 0 (min ⌊top / pageHeightPx⌋ ((pageCount : Int) - 1))

/-- The outline item dictionary built for bookmark index `i` (of `n`) once its
destination page is resolved: Prev present iff `i > 0`, Next present iff
`i < n - 1`, Parent the root reference, destination top the first page's
height (top of page). -/
def mkItemRecord (outlineRef : Nat) (itemRefs : List Nat) (n i : Nat)
    (pageHeight : ℚ) (page : PdfPage) (bm : Bookmark) : OutlineItem :=
  { selfRef := itemRefs.getD i 0
    title := bm.title
    parent := outlineRef
    destPage := page.ref
    destTop := pageHeight
    prev := if 0 < i then some (itemRefs.getD (i - 1) 0) else none
    next := if i < n - 1 then some (itemRefs.getD (i + 1) 0) else none }

/-- Body of the bookmark loop for one index: resolve the destination page via
the variant's page-index computation (`locate`), failing like the JS code does
when the index is out of the page array's bounds. -/
def buildItem (locate : ℚ → Nat → Int) (pages : List PdfPage)
    (pageHeight : ℚ) (outlineRef : Nat) (itemRefs : List Nat) (n i : Nat)
    (bm : Bookmark) : Option OutlineItem :=
  match listGetInt pages (locate bm.top pages.length) with
  | some page => some (mkItemRecord outlineRef itemRefs n i pageHeight page bm)
  | none => none

/-- The `for (let i = 0; ...)` loop of `addBookmarksToPdf`, building the item
object for every bookmark starting at index `i`. -/
def buildItems (locate : ℚ → Nat → Int) (pages : List PdfPage)
    (pageHeight : ℚ) (outlineRef : Nat) (itemRefs : List Nat) (n : Nat) :
    Nat → List Bookmark → Option (List OutlineItem)
  | _, [] => some []
  | i, bm :: rest =>
    match buildItem locate pages pageHeight outlineRef itemRefs n i bm,
        buildItems locate pages pageHeight outlineRef itemRefs n (i + 1) rest with
    | some item, some restItems => some (item :: restItems)
    | _, _ => none

/-- `addBookmarksToPdf` (src/server/md2pdf-converter.js lines 33-91 and
src/unnamed/part_002 lines 211-253; the variants differ only in the
page-index computation passed as `locate`): with no bookmarks the document is
saved unchanged; otherwise one reference is allocated for the outline root and
one per bookmark, the sibling-linked items are built, the root dictionary gets
First/Last/Count, and the root is registered as the catalog's Outlines. -/
def addBookmarksToPdf (locate : ℚ → Nat → Int) (doc : PdfDoc)
    (bookmarks : List Bookmark) : Option PdfDoc :=
  if bookmarks.length = 0 then some doc
  else
    match doc.pages with
    | [] => none
    | p0 :: _ =>
      let pageHeight := p0.height
      let outlineRef := doc.nextFree
      let n := bookmarks.length
      let itemRefs := (List.range n).map (fun j => doc.nextFree + 1 + j)
      match buildItems locate doc.pages pageHeight outlineRef itemRefs n 0
          bookmarks with
      | none => none
      | some items =>
        some { pages := doc.pages
               catalogOutlines := some outlineRef
               outline := some ({ selfRef := outlineRef
                                  first := itemRefs.getD 0 0
                                  last := itemRefs.getD (n - 1) 0
                                  count := n }, items)
               nextFree := doc.nextFree + 1 + n }

/-- Failure kinds the conversion can surface: the render-complete wait timing
out (puppeteer's TimeoutError from `waitForSelector`/`waitForFunction`), or a
pdf-lib failure while attaching bookmarks. -/
inductive ConvError where
  | renderTimeout
  | pdfLibFailed
deriving DecidableEq

/-- What the headless rendering engine presents to the converter once the page
is loaded: the millisecond at which the in-page script sets the
render-complete flag (`none` if it never does), the rendered DOM, and the
paginated document `page.pdf()` produces (as pdf-lib loads it). -/
structure LayoutEnv where
  readyAt : Option Nat
  dom : List DomElem
  pdf : PdfDoc

/-- `waitForSelector('body.render-complete', { timeout })` /
`waitForFunction(..., { timeout })`: resolves iff the flag is set within
`timeoutMs` milliseconds, otherwise throws a timeout error. -/
def waitForReady (timeoutMs : Nat) (env : LayoutEnv) : Except ConvError Unit :=
  match env.readyAt with
  | none => Except.error ConvError.renderTimeout
  | some t =>
    if timeoutMs < t then Except.error ConvError.renderTimeout
    else Except.ok ()

/-- The render-complete wait bound of src/server/md2pdf-converter.js line 425
(`{ timeout: 30000 }`). -/
def timeoutMs_server : Nat := 30000

/-- The render-complete wait bound of src/unnamed/part_002 line 342
(`{ timeout: 60000 }`). -/
def timeoutMs_v2 : Nat := 60000

/-- Control flow of `mdToPdf` after the HTML is built: reset-and-capture the
headings, wait (bounded) for the render-complete flag, measure the heading
anchors in the DOM, rasterize, and either write the raw document (no
bookmarks) or run `addBookmarksToPdf`.  An error anywhere aborts the
conversion with no output document. -/
def mdToPdfModel (timeoutMs : Nat) (locate : ℚ → Nat → Int)
    (prior : List HeadingRec) (doc : List Block) (env : LayoutEnv) :
    Except ConvError PdfDoc :=
  let hs := mdToPdfHeadings prior doc
  match waitForReady timeoutMs env with
  | Except.error e => Except.error e
  | Except.ok _ =>
    let bookmarkData := collectBookmarks hs env.dom
    if bookmarkData.length = 0 then Except.ok env.pdf
    else
      match addBookmarksToPdf locate env.pdf bookmarkData with
      | some outDoc => Except.ok outDoc
      | none => Except.error ConvError.pdfLibFailed

/-- Replace the rendered inline HTML of every heading token (leaving raw text,
levels and everything else untouched) — used to show the captured titles do
not depend on the rendered inline HTML. -/
def setInlineHtml (f : HeadingToken → String) : Block → Block
  | Block.heading t => Block.heading { t with inlineHtml := f t }
  | b => b

/-! ### Helper lemmas (shared) -/

theorem parseDoc_fst : ∀ (bs : List Block) (st : List HeadingRec),
    (parseDoc st bs).1 = st ++ (headingTokens bs).map tokenToRec := by
  intro bs
  induction bs with
  | nil => intro st; simp [parseDoc, headingTokens]
  | cons b bs ih =>
    intro st
    cases b with
    | heading tok =>
      simp [parseDoc, renderBlock, rendererHeading, headingTokens,
        List.filterMap_cons, tokenToRec, ih]
    | code c lang =>
      simp [parseDoc, renderBlock, headingTokens, List.filterMap_cons, ih]
    | other h =>
      simp [parseDoc, renderBlock, headingTokens, List.filterMap_cons, ih]

theorem headingTokens_setInline (f : HeadingToken → String) :
    ∀ doc : List Block,
      (headingTokens (doc.map (setInlineHtml f))).map tokenToRec
        = (headingTokens doc).map tokenToRec := by
  intro doc
  induction doc with
  | nil => rfl
  | cons b bs ih =>
    simp only [headingTokens] at ih ⊢
    cases b with
    | heading tok =>
      simp only [List.map_cons, setInlineHtml, List.filterMap_cons,
        List.map_cons, ih]
      rfl
    | code c lang =>
      simpa only [List.map_cons, setInlineHtml, List.filterMap_cons] using ih
    | other h =>
      simpa only [List.map_cons, setInlineHtml, List.filterMap_cons] using ih

theorem collectBookmarks_titles : ∀ (hs : List HeadingRec) (dom : List DomElem),
    (collectBookmarks hs dom).map Bookmark.title
      = (hs.filter (fun h => (getElementById dom h.id).isSome)).map
          HeadingRec.text := by
  intro hs dom
  induction hs with
  | nil => simp [collectBookmarks]
  | cons h hs ih =>
    cases hfind : getElementById dom h.id with
    | some e => simp [collectBookmarks, hfind, List.filter_cons, ih]
    | none => simp [collectBookmarks, hfind, List.filter_cons, ih]

theorem escapeChar_of_not_sensitive {c : Char} (h : isHtmlSensitive c = false) :
    escapeChar c = String.singleton c := by
  simp only [isHtmlSensitive, Bool.or_eq_false_iff, decide_eq_false_iff_not] at h
  obtain ⟨⟨⟨⟨h1, h2⟩, h3⟩, h4⟩, h5⟩ := h
  simp [escapeChar, h1, h2, h3, h4, h5]

theorem escapeChar_data_no_raw (c : Char) :
    ∀ x ∈ (escapeChar c).data,
      x ≠ '<' ∧ x ≠ '>' ∧ x ≠ '"' ∧ x ≠ '\'' := by
  unfold escapeChar
  split_ifs with h1 h2 h3 h4 h5
  · decide
  · decide
  · decide
  · decide
  · decide
  · intro x hx
    have hx' : x = c := by
      simpa [String.singleton] using hx
    subst hx'
    exact ⟨h2, h3, h4, h5⟩

theorem escapeChar_count_amp (c : Char) :
    (escapeChar c).data.count '&'
      = (if isHtmlSensitive c then 1 else 0) := by
  by_cases h1 : c = '&'
  · subst h1; decide
  by_cases h2 : c = '<'
  · subst h2; decide
  by_cases h3 : c = '>'
  · subst h3; decide
  by_cases h4 : c = '"'
  · subst h4; decide
  by_cases h5 : c = '\''
  · subst h5; decide
  have hsens : isHtmlSensitive c = false := by
    simp [isHtmlSensitive, h1, h2, h3, h4, h5]
  have hne : ('&' : Char) ≠ c := fun hh => h1 hh.symm
  rw [escapeChar_of_not_sensitive hsens, hsens]
  simp [String.singleton, List.count_cons, beq_iff_eq, hne]

theorem escapeList_no_raw (l : List Char) :
    '<' ∉ escapeList l ∧ '>' ∉ escapeList l ∧
    '"' ∉ escapeList l ∧ '\'' ∉ escapeList l := by
  induction l with
  | nil => simp [escapeList]
  | cons c t ih =>
    have hc := escapeChar_data_no_raw c
    simp only [escapeList, List.flatMap_cons, List.mem_append] at *
    refine ⟨?_, ?_, ?_, ?_⟩ <;> rintro (hx | hx)
    · exact (hc _ hx).1 rfl
    · exact ih.1 hx
    · exact (hc _ hx).2.1 rfl
    · exact ih.2.1 hx
    · exact (hc _ hx).2.2.1 rfl
    · exact ih.2.2.1 hx
    · exact (hc _ hx).2.2.2 rfl
    · exact ih.2.2.2 hx

theorem escapeList_count_amp (l : List Char) :
    (escapeList l).count '&' = l.countP (fun c => isHtmlSensitive c) := by
  induction l with
  | nil => simp [escapeList]
  | cons c t ih =>
    have hstep : escapeList (c :: t) = (escapeChar c).data ++ escapeList t := by
      simp [escapeList]
    rw [hstep, List.count_append, ih, escapeChar_count_amp, List.countP_cons]
    by_cases hc : isHtmlSensitive c <;> simp [hc, Nat.add_comm]

theorem getD_range_map (m n j : Nat) (h : j < n) :
    ((List.range n).map (fun k => m + k)).getD j 0 = m + j := by
  rw [List.getD_eq_getElem _ _ (by simpa using h)]
  simp

/-! ### Claim theorems -/

/-- Claim C5 (confirmed): one conversion captures exactly the document's
headings, in document order; and since `mdToPdf` clears the shared `headings`
array on entry, the list a second conversion produces is independent of
whatever an earlier conversion in the same process left behind. -/
theorem headingCapture_reset (prior : List HeadingRec) (doc : List Block) :
    mdToPdfHeadings prior doc = (headingTokens doc).map tokenToRec ∧
    (mdToPdfHeadings prior doc).length = (headingTokens doc).length ∧
    (∀ prior1 doc1,
      mdToPdfHeadings (mdToPdfHeadings prior1 doc1) doc
        = mdToPdfHeadings prior doc) := by
  refine ⟨?_, ?_, ?_⟩ <;>
    simp [mdToPdfHeadings, resetHeadings, parseDoc_fst]

/-- Claim C10 counterexample: for a heading written `# **Bold**` and for one
containing the code span `var`, the captured title is the markup-stripped
plain text ("Bold", "var"), not the raw Markdown source ("**Bold**" with the
asterisks, the code span with its backticks) — inline markup characters do
NOT appear verbatim in bookmark titles. -/
theorem bookmarkTitle_strips_markup :
    (mdToPdfHeadings []
        [Block.heading (mkHeadingToken 1 [Inline.strong "Bold"])]).map
        HeadingRec.text = ["Bold"] ∧
    headingSource [Inline.strong "Bold"] = "**Bold**" ∧
    ("Bold" : String) ≠ "**Bold**" ∧
    (mdToPdfHeadings []
        [Block.heading (mkHeadingToken 1 [Inline.codespan "var"])]).map
        HeadingRec.text = ["var"] ∧
    headingSource [Inline.codespan "var"] = "`var`" ∧
    ("var" : String) ≠ "`var`" := by
  refine ⟨by decide, rfl, by decide, by decide, rfl, by decide⟩

/-- Claim C10 (amended): the stored heading text — and hence every outline
node's Title — is marked's plain-text rendering of the heading's inline
content (the third `renderer.heading` argument,
`unescape(parseInline(token.tokens, textRenderer))`): the capture stores that
argument unchanged and the measurement loop copies it verbatim into bookmark
titles; it is neither the rendered inline HTML (the capture list is invariant
under arbitrary changes to it) nor the raw Markdown source (the TextRenderer
keeps only the content of strong/em/code-span tokens, while the source keeps
their markers). -/
theorem bookmarkTitles_plain (prior : List HeadingRec) (doc : List Block) :
    (mdToPdfHeadings prior doc).map HeadingRec.text
      = (headingTokens doc).map HeadingToken.raw ∧
    (∀ level inls, (mkHeadingToken level inls).raw = headingPlain inls) ∧
    (∀ s, inlineToText (Inline.strong s) = s ∧
      inlineToText (Inline.em s) = s ∧
      inlineToText (Inline.codespan s) = s ∧
      inlineToSource (Inline.strong s) = "**" ++ s ++ "**" ∧
      inlineToSource (Inline.codespan s) = "`" ++ s ++ "`") ∧
    (∀ f, mdToPdfHeadings prior (doc.map (setInlineHtml f))
        = mdToPdfHeadings prior doc) ∧
    (∀ hs dom, (collectBookmarks hs dom).map Bookmark.title
        = (hs.filter (fun h => (getElementById dom h.id).isSome)).map
            HeadingRec.text) := by
  refine ⟨?_, fun level inls => rfl, fun s => ⟨rfl, rfl, rfl, rfl, rfl⟩,
    fun f => ?_, fun hs dom => collectBookmarks_titles hs dom⟩
  · simp only [mdToPdfHeadings, resetHeadings, parseDoc_fst, List.nil_append,
      List.map_map]
    rfl
  · simp [mdToPdfHeadings, resetHeadings, parseDoc_fst,
      headingTokens_setInline]

/-- Claim C2 counterexample: the server variant's `renderer.code`
(src/server/md2pdf-converter.js lines 25-29) embeds the fenced code content
verbatim — an ampersand is NOT replaced, so the claimed escaping does not
happen in that renderer. -/
theorem codeRenderer_server_unescaped :
    rendererCode_server "&" none
      = "<pre><code class=\"language-plaintext\">&</code></pre>" ∧
    rendererCode_server "&" none
      ≠ "<pre><code class=\"language-plaintext\">&amp;</code></pre>" := by
  constructor
  · rfl
  · decide

/-- Claim C2 (amended): the part_002 variant's `renderer.code` escapes exactly
the five HTML-sensitive characters of the code content in a single pass before
embedding (it equals the server wrapper applied to the escaped content; every
non-sensitive character maps to itself; the five characters map to their
entities; no raw `<`, `>`, `"`, `'` survives; and the output's ampersand count
is exactly the number of sensitive occurrences in the input) — while the
server variant embeds the content verbatim without escaping. -/
theorem codeRenderer_escape (code : String) (language : Option String) :
    rendererCode_v2 code language
      = rendererCode_server (escapeHtml code) language ∧
    (escapeChar '&' = "&amp;" ∧ escapeChar '<' = "&lt;" ∧
      escapeChar '>' = "&gt;" ∧ escapeChar '"' = "&quot;" ∧
      escapeChar '\'' = "&#39;") ∧
    (∀ c, isHtmlSensitive c = false → escapeChar c = String.singleton c) ∧
    ('<' ∉ (escapeHtml code).data ∧ '>' ∉ (escapeHtml code).data ∧
      '"' ∉ (escapeHtml code).data ∧ '\'' ∉ (escapeHtml code).data) ∧
    (escapeHtml code).data.count '&'
      = code.data.countP (fun c => isHtmlSensitive c) := by
  refine ⟨rfl, ⟨rfl, rfl, rfl, rfl, rfl⟩,
    fun c h => escapeChar_of_not_sensitive h, ?_, ?_⟩
  · simpa [escapeHtml] using escapeList_no_raw code.data
  · simpa [escapeHtml] using escapeList_count_amp code.data

/-- Witness for the C2 amended theorem at concrete inputs. -/
theorem codeRenderer_escape_witness :
    rendererCode_v2 "a<b" none
      = rendererCode_server (escapeHtml "a<b") none ∧
    escapeChar 'a' = String.singleton 'a' :=
  ⟨(codeRenderer_escape "a<b" none).1,
    (codeRenderer_escape "a<b" none).2.2.1 'a' (by decide)⟩

/-- Claim C3 counterexample: the server variant's page locator is not the
clamped floor the claim describes — at offset -900 with one page it yields -1,
outside [0, 0], differing from the spec formula. -/
theorem locate_server_not_clamped :
    locateIdx_server (-900) 1 = -1 ∧
    locateSpec (-900) 900 1 = 0 ∧
    locateIdx_server (-900) 1 ≠ locateSpec (-900) 900 1 := by
  refine ⟨?_, ?_, ?_⟩ <;> norm_num [locateIdx_server, locateSpec]

/-- Claim C3 (amended): the part_002 locator equals
`floor(top / 841.89)` clamped to [0, pageCount-1] for every offset; the
server locator computes `min(floor(top / 900), pageCount-1)` — it agrees with
the clamped formula whenever the offset is nonnegative but omits the lower
clamp. -/
theorem locate_matches_spec (top : ℚ) (n : Nat) (hn : 1 ≤ n) :
    locateIdx_v2 top n = locateSpec top (84189 / 100) n ∧
    (0 ≤ top → locateIdx_server top n = locateSpec top 900 n) := by
  constructor
  · unfold locateIdx_v2 locateSpec
    generalize ⌊top / (84189 / 100)⌋ = x
    omega
  · intro htop
    unfold locateIdx_server locateSpec
    have hx : 0 ≤ ⌊top / 900⌋ :=
      Int.floor_nonneg.mpr (div_nonneg htop (by norm_num))
    generalize ⌊top / 900⌋ = x at hx
    omega

/-- Witness for the C3 amended theorem at concrete inputs. -/
theorem locate_matches_spec_witness :
    locateIdx_v2 1000 2 = locateSpec 1000 (84189 / 100) 2 ∧
    locateIdx_server 1000 2 = locateSpec 1000 900 2 :=
  ⟨(locate_matches_spec 1000 2 (by norm_num)).1,
    (locate_matches_spec 1000 2 (by norm_num)).2 (by norm_num)⟩

/-- Claim C4 counterexample: with the server locator, a negative offset
produces a negative page index and the guarded page-array access fails —
`addBookmarksToPdf` aborts (`pages[-1]` is undefined in JS and the subsequent
`.ref` access throws). -/
theorem locate_server_out_of_bounds :
    locateIdx_server (-900) 1 < 0 ∧
    addBookmarksToPdf locateIdx_server
        { pages := [{ ref := 3, height := 842 }], catalogOutlines := none,
          outline := none, nextFree := 10 }
        [{ title := "A", level := 1, top := -900 }] = none := by
  have h : locateIdx_server (-900) 1 = -1 := by
    norm_num [locateIdx_server]
  constructor
  · rw [h]; norm_num
  · simp [addBookmarksToPdf, buildItems, buildItem, listGetInt, h]

/-- Claim C4 (amended): the part_002 locator always lands in
[0, pageCount-1], for every rational offset (arbitrarily large or negative);
the server locator respects the upper bound always and the lower bound
whenever the offset is nonnegative — but not for negative offsets. -/
theorem locate_in_range (top : ℚ) (n : Nat) (hn : 1 ≤ n) :
    (0 ≤ locateIdx_v2 top n ∧ locateIdx_v2 top n ≤ (n : Int) - 1) ∧
    locateIdx_server top n ≤ (n : Int) - 1 ∧
    (0 ≤ top → 0 ≤ locateIdx_server top n) := by
  refine ⟨?_, ?_, fun htop => ?_⟩
  · unfold locateIdx_v2
    generalize ⌊top / (84189 / 100)⌋ = x
    omega
  · unfold locateIdx_server
    generalize ⌊top / 900⌋ = x
    omega
  · unfold locateIdx_server
    have hx : 0 ≤ ⌊top / 900⌋ :=
      Int.floor_nonneg.mpr (div_nonneg htop (by norm_num))
    generalize ⌊top / 900⌋ = x at hx
    omega

/-- Witness for the C4 amended theorem at concrete inputs. -/
theorem locate_in_range_witness :
    0 ≤ locateIdx_v2 (-5000) 3 ∧ locateIdx_v2 (-5000) 3 ≤ (3 : Int) - 1 :=
  (locate_in_range (-5000) 3 (by norm_num)).1

/-- Claim C9 (confirmed): both variants' page locators are monotone in the
vertical offset — a heading placed lower in the continuous layout never gets
a smaller page index. -/
theorem locate_monotone (a b : ℚ) (n : Nat) (hab : a < b) :
    locateIdx_server a n ≤ locateIdx_server b n ∧
    locateIdx_v2 a n ≤ locateIdx_v2 b n := by
  have hdiv1 : a / 900 ≤ b / 900 := by gcongr
  have hdiv2 : a / (84189 / 100) ≤ b / (84189 / 100) := by gcongr
  have h1 : ⌊a / 900⌋ ≤ ⌊b / 900⌋ := Int.floor_le_floor hdiv1
  have h2 : ⌊a / (84189 / 100)⌋ ≤ ⌊b / (84189 / 100)⌋ :=
    Int.floor_le_floor hdiv2
  constructor
  · unfold locateIdx_server
    generalize ⌊a / 900⌋ = x at h1
    generalize ⌊b / 900⌋ = y at h1
    omega
  · unfold locateIdx_v2
    generalize ⌊a / (84189 / 100)⌋ = x at h2
    generalize ⌊b / (84189 / 100)⌋ = y at h2
    omega

/-- Witness for the C9 theorem at concrete inputs. -/
theorem locate_monotone_witness :
    locateIdx_server 100 2 ≤ locateIdx_server 1000 2 ∧
    locateIdx_v2 100 2 ≤ locateIdx_v2 1000 2 :=
  locate_monotone 100 1000 2 (by norm_num)

theorem buildItems_spec (locate : ℚ → Nat → Int) (pages : List PdfPage)
    (ph : ℚ) (oref : Nat) (irefs : List Nat) (n : Nat) :
    ∀ (bms : List Bookmark) (i : Nat) (items : List OutlineItem),
      buildItems locate pages ph oref irefs n i bms = some items →
      items.length = bms.length ∧
      ∀ j bm, bms.get? j = some bm →
        ∃ page, listGetInt pages (locate bm.top pages.length) = some page ∧
          items.get? j = some (mkItemRecord oref irefs n (i + j) ph page bm) := by
  intro bms
  induction bms with
  | nil =>
    intro i items h
    simp only [buildItems] at h
    obtain rfl : ([] : List OutlineItem) = items := Option.some.inj h
    exact ⟨rfl, by intro j bm hj; simp at hj⟩
  | cons bm rest ih =>
    intro i items h
    cases hbi : buildItem locate pages ph oref irefs n i bm with
    | none => rw [buildItems, hbi] at h; exact absurd h (by simp)
    | some item =>
      cases hrest : buildItems locate pages ph oref irefs n (i + 1) rest with
      | none => rw [buildItems, hbi, hrest] at h; exact absurd h (by simp)
      | some restItems =>
        rw [buildItems, hbi, hrest] at h
        obtain rfl : item :: restItems = items := Option.some.inj h
        obtain ⟨hlen, hget⟩ := ih (i + 1) restItems hrest
        refine ⟨by simp [hlen], ?_⟩
        intro j bmj hj
        cases j with
        | zero =>
          obtain rfl : bm = bmj := by simpa using hj
          unfold buildItem at hbi
          cases hpage : listGetInt pages (locate bm.top pages.length) with
          | none => rw [hpage] at hbi; exact absurd hbi (by simp)
          | some page =>
            rw [hpage] at hbi
            refine ⟨page, rfl, ?_⟩
            obtain rfl := Option.some.inj hbi
            simp
        | succ j' =>
          have hj' : rest.get? j' = some bmj := by simpa using hj
          obtain ⟨page, hp, hi⟩ := hget j' bmj hj'
          refine ⟨page, hp, ?_⟩
          have harith : i + 1 + j' = i + (j' + 1) := by omega
          rw [harith] at hi
          simpa using hi

/-- Claim C1 (confirmed): whenever `addBookmarksToPdf` attaches an outline for
a non-empty bookmark list, the outline graph has exactly N sibling nodes in
input order (node j carries bookmark j's title and the reference allocated
for index j); node 0 has no Prev and node N-1 has no Next, interior nodes
link to the adjacent siblings; every node's Parent is the root reference; the
root (registered as the catalog's Outlines) holds First = node 0,
Last = node N-1, and Count = N. -/
theorem outline_structure (locate : ℚ → Nat → Int) (doc doc' : PdfDoc)
    (bms : List Bookmark) (hne : bms ≠ [])
    (h : addBookmarksToPdf locate doc bms = some doc') :
    ∃ root items, doc'.outline = some (root, items) ∧
      doc'.catalogOutlines = some root.selfRef ∧
      items.length = bms.length ∧
      root.count = bms.length ∧
      root.first = doc.nextFree + 1 ∧
      root.last = doc.nextFree + 1 + (bms.length - 1) ∧
      ∀ j bm, bms.get? j = some bm →
        ∃ item, items.get? j = some item ∧
          item.title = bm.title ∧
          item.parent = root.selfRef ∧
          item.selfRef = doc.nextFree + 1 + j ∧
          item.prev = (if 0 < j then some (doc.nextFree + 1 + (j - 1))
              else none) ∧
          item.next = (if j < bms.length - 1
              then some (doc.nextFree + 1 + (j + 1)) else none) := by
  have hlen0 : ¬ bms.length = 0 := by
    simpa [List.length_eq_zero] using hne
  rw [addBookmarksToPdf, if_neg hlen0] at h
  cases hpa : doc.pages with
  | nil => rw [hpa] at h; exact absurd h (by simp)
  | cons p0 ps =>
    rw [hpa] at h
    simp only at h
    cases hbi : buildItems locate (p0 :: ps) p0.height doc.nextFree
        ((List.range bms.length).map (fun j => doc.nextFree + 1 + j))
        bms.length 0 bms with
    | none => rw [hbi] at h; exact absurd h (by simp)
    | some items =>
      rw [hbi] at h
      obtain rfl := (Option.some.inj h).symm
      obtain ⟨hlen, hget⟩ := buildItems_spec locate (p0 :: ps) p0.height
        doc.nextFree ((List.range bms.length).map (fun j => doc.nextFree + 1 + j))
        bms.length bms 0 items hbi
      have hpos : 0 < bms.length := Nat.pos_of_ne_zero hlen0
      refine ⟨_, items, rfl, rfl, hlen, rfl, ?_, ?_, ?_⟩
      · simpa using getD_range_map (doc.nextFree + 1) bms.length 0 hpos
      · exact getD_range_map (doc.nextFree + 1) bms.length (bms.length - 1)
          (by omega)
      · intro j bm hj
        have hjlt : j < bms.length := by
          have := List.get?_eq_some.mp hj
          exact this.1
        obtain ⟨page, hp, hi⟩ := hget j bm hj
        rw [Nat.zero_add] at hi
        refine ⟨_, hi, rfl, rfl, ?_, ?_, ?_⟩ <;> simp only [mkItemRecord]
        · exact getD_range_map _ _ _ hjlt
        · by_cases hzj : 0 < j
          · rw [if_pos hzj, if_pos hzj,
              getD_range_map (doc.nextFree + 1) bms.length (j - 1) (by omega)]
          · rw [if_neg hzj, if_neg hzj]
        · by_cases hnj : j < bms.length - 1
          · rw [if_pos hnj, if_pos hnj,
              getD_range_map (doc.nextFree + 1) bms.length (j + 1) (by omega)]
          · rw [if_neg hnj, if_neg hnj]

/-- Witness for the C1 theorem: applying it at a concrete two-bookmark input
(the outline synthesizer evaluated on a one-page document). -/
theorem outline_structure_witness :
    ∃ doc2 : PdfDoc,
      addBookmarksToPdf locateIdx_v2
          { pages := [{ ref := 3, height := 842 }], catalogOutlines := none,
            outline := none, nextFree := 10 }
          [{ title := "A", level := 1, top := 0 },
           { title := "B", level := 2, top := 0 }] = some doc2 ∧
      ∃ root items, doc2.outline = some (root, items) ∧
        items.length = 2 ∧ root.count = 2 ∧
        doc2.catalogOutlines = some root.selfRef := by
  have hloc : locateIdx_v2 0 1 = 0 := by norm_num [locateIdx_v2]
  have hEval : addBookmarksToPdf locateIdx_v2
      { pages := [{ ref := 3, height := 842 }], catalogOutlines := none,
        outline := none, nextFree := 10 }
      [{ title := "A", level := 1, top := 0 },
       { title := "B", level := 2, top := 0 }]
      = some { pages := [{ ref := 3, height := 842 }],
               catalogOutlines := some 10,
               outline := some ({ selfRef := 10, first := 11, last := 12,
                                  count := 2 },
                 [{ selfRef := 11, title := "A", parent := 10, destPage := 3,
                    destTop := 842, prev := none, next := some 12 },
                  { selfRef := 12, title := "B", parent := 10, destPage := 3,
                    destTop := 842, prev := some 11, next := none }]),
               nextFree := 13 } := by
    simp [addBookmarksToPdf, buildItems, buildItem, listGetInt, mkItemRecord,
      hloc, List.range_succ]
  obtain ⟨root, items, h1, h2, hlen, hcount, _, _, _⟩ :=
    outline_structure locateIdx_v2 _ _ _ (by simp) hEval
  exact ⟨_, hEval, root, items, h1, by simp [hlen], hcount, h2⟩

/-- Claim C8 (confirmed): with an empty bookmark list the outline synthesizer
serializes the document unchanged — identical page content, no outline object
attached, and (the input being a freshly rendered document with no Outlines
key) the catalog still has no Outlines key. -/
theorem addBookmarks_empty (locate : ℚ → Nat → Int) (doc : PdfDoc)
    (houtline : doc.outline = none) (hcat : doc.catalogOutlines = none) :
    addBookmarksToPdf locate doc [] = some doc ∧
    ∃ doc2, addBookmarksToPdf locate doc [] = some doc2 ∧
      doc2.pages = doc.pages ∧ doc2.outline = none ∧
      doc2.catalogOutlines = none := by
  have h : addBookmarksToPdf locate doc [] = some doc := by
    simp [addBookmarksToPdf]
  exact ⟨h, doc, h, rfl, houtline, hcat⟩

/-- Witness for the C8 theorem at a concrete one-page document. -/
theorem addBookmarks_empty_witness :
    addBookmarksToPdf locateIdx_server
      { pages := [{ ref := 3, height := 842 }], catalogOutlines := none,
        outline := none, nextFree := 10 } []
      = some { pages := [{ ref := 3, height := 842 }], catalogOutlines := none,
               outline := none, nextFree := 10 } :=
  (addBookmarks_empty locateIdx_server _ rfl rfl).1

/-- Claim C7 (confirmed): the render-complete wait is bounded — 30000 ms in
the server variant and 60000 ms in part_002, both within the 30-60 s range —
and when the in-page flag never becomes true within the bound the conversion
fails with the render-timeout error instead of producing any output
document. -/
theorem renderWait_bounded :
    (30000 ≤ timeoutMs_server ∧ timeoutMs_server ≤ 60000) ∧
    (30000 ≤ timeoutMs_v2 ∧ timeoutMs_v2 ≤ 60000) ∧
    (∀ locate prior doc env, env.readyAt = none →
      mdToPdfModel timeoutMs_server locate prior doc env
          = Except.error ConvError.renderTimeout ∧
      mdToPdfModel timeoutMs_v2 locate prior doc env
          = Except.error ConvError.renderTimeout) ∧
    (∀ locate prior doc env t, env.readyAt = some t → timeoutMs_server < t →
      mdToPdfModel timeoutMs_server locate prior doc env
          = Except.error ConvError.renderTimeout) ∧
    (∀ locate prior doc env t, env.readyAt = some t → timeoutMs_v2 < t →
      mdToPdfModel timeoutMs_v2 locate prior doc env
          = Except.error ConvError.renderTimeout) := by
  refine ⟨⟨by norm_num [timeoutMs_server], by norm_num [timeoutMs_server]⟩,
    ⟨by norm_num [timeoutMs_v2], by norm_num [timeoutMs_v2]⟩, ?_, ?_, ?_⟩
  · intro locate prior doc env h
    constructor <;> simp [mdToPdfModel, waitForReady, h]
  · intro locate prior doc env t h ht
    simp [mdToPdfModel, waitForReady, h, ht]
  · intro locate prior doc env t h ht
    simp [mdToPdfModel, waitForReady, h, ht]

/-- Witness for the C7 theorem: a never-ready page and a page becoming ready
only after the bound both end in the render-timeout error. -/
theorem renderWait_bounded_witness :
    mdToPdfModel timeoutMs_server locateIdx_server [] []
        { readyAt := none, dom := [],
          pdf := { pages := [], catalogOutlines := none, outline := none,
                   nextFree := 0 } }
      = Except.error ConvError.renderTimeout ∧
    mdToPdfModel timeoutMs_v2 locateIdx_v2 [] []
        { readyAt := some 70000, dom := [],
          pdf := { pages := [], catalogOutlines := none, outline := none,
                   nextFree := 0 } }
      = Except.error ConvError.renderTimeout :=
  ⟨(renderWait_bounded.2.2.1 locateIdx_server [] [] _ rfl).1,
    renderWait_bounded.2.2.2.2 locateIdx_v2 [] [] _ 70000 rfl
      (by norm_num [timeoutMs_v2])⟩

/-- Claim C6 (amended): when every captured heading's anchor id is present in
the rendered DOM — in particular when two headings share one anchor id — the
measurement loop does not fail and produces one bookmark per heading record,
each resolving to the position of the FIRST DOM element carrying that id; so
duplicate-id headings both receive outline entries (at the same position),
rather than only the single locatable element receiving one. -/
theorem collect_all_found (hs : List HeadingRec) (dom : List DomElem)
    (hall : ∀ h ∈ hs, (getElementById dom h.id).isSome = true) :
    collectBookmarks hs dom
      = hs.map (fun h => { title := h.text, level := h.level,
                           top := firstTop dom h.id }) := by
  induction hs with
  | nil => simp [collectBookmarks]
  | cons h hs ih =>
    have hh := hall h (by simp)
    cases hfind : getElementById dom h.id with
    | none => rw [hfind] at hh; simp at hh
    | some e =>
      have hrec := ih (fun x hx => hall x (by simp [hx]))
      simp [collectBookmarks, hfind, firstTop, hrec]

/-- Witness for the C6 amended theorem at the duplicate-anchor input. -/
theorem collect_all_found_witness :
    collectBookmarks
        [{ level := 1, text := "Notes", id := "notes" },
         { level := 2, text := "Notes", id := "notes" }]
        [{ id := "notes", top := 100 }, { id := "notes", top := 2000 }]
      = [{ title := "Notes", level := 1, top := 100 },
         { title := "Notes", level := 2, top := 100 }] := by
  rw [collect_all_found _ _ (by decide)]
  rfl

/-- Claim C6 counterexample: a document with two "Notes" headings (deriving
the same anchor id "notes") converts without failure, but the produced
outline contains entries for BOTH headings — the claim's "and not entries for
both headings" fails on the code, because `document.getElementById` resolves
the shared id (to the first element) for both captured records. -/
theorem duplicate_anchor_two_entries :
    mdToPdfModel timeoutMs_v2 locateIdx_v2 []
        [Block.heading { inlineHtml := "Notes", level := 1, raw := "Notes" },
         Block.other "<p>x</p>",
         Block.heading { inlineHtml := "Notes", level := 2, raw := "Notes" }]
        { readyAt := some 0,
          dom := [{ id := "notes", top := 100 },
                  { id := "notes", top := 2000 }],
          pdf := { pages := [{ ref := 3, height := 842 },
                             { ref := 4, height := 842 }],
                   catalogOutlines := none, outline := none, nextFree := 10 } }
      = Except.ok
          { pages := [{ ref := 3, height := 842 },
                      { ref := 4, height := 842 }],
            catalogOutlines := some 10,
            outline := some ({ selfRef := 10, first := 11, last := 12,
                               count := 2 },
              [{ selfRef := 11, title := "Notes", parent := 10, destPage := 3,
                 destTop := 842, prev := none, next := some 12 },
               { selfRef := 12, title := "Notes", parent := 10, destPage := 3,
                 destTop := 842, prev := some 11, next := none }]),
            nextFree := 13 } := by
  have hloc : locateIdx_v2 100 2 = 0 := by norm_num [locateIdx_v2]
  have hhs : mdToPdfHeadings []
      [Block.heading { inlineHtml := "Notes", level := 1, raw := "Notes" },
       Block.other "<p>x</p>",
       Block.heading { inlineHtml := "Notes", level := 2, raw := "Notes" }]
      = [{ level := 1, text := "Notes", id := "notes" },
         { level := 2, text := "Notes", id := "notes" }] := by decide
  have hcol : collectBookmarks
      [{ level := 1, text := "Notes", id := "notes" },
       { level := 2, text := "Notes", id := "notes" }]
      [{ id := "notes", top := 100 }, { id := "notes", top := 2000 }]
      = [{ title := "Notes", level := 1, top := 100 },
         { title := "Notes", level := 2, top := 100 }] := by decide
  have habm : addBookmarksToPdf locateIdx_v2
      { pages := [{ ref := 3, height := 842 }, { ref := 4, height := 842 }],
        catalogOutlines := none, outline := none, nextFree := 10 }
      [{ title := "Notes", level := 1, top := 100 },
       { title := "Notes", level := 2, top := 100 }]
      = some
          { pages := [{ ref := 3, height := 842 },
                      { ref := 4, height := 842 }],
            catalogOutlines := some 10,
            outline := some ({ selfRef := 10, first := 11, last := 12,
                               count := 2 },
              [{ selfRef := 11, title := "Notes", parent := 10, destPage := 3,
                 destTop := 842, prev := none, next := some 12 },
               { selfRef := 12, title := "Notes", parent := 10, destPage := 3,
                 destTop := 842, prev := some 11, next := none }]),
            nextFree := 13 } := by
    simp [addBookmarksToPdf, buildItems, buildItem, listGetInt, mkItemRecord,
      hloc, List.range_succ]
  simp [mdToPdfModel, waitForReady, timeoutMs_v2, hhs, hcol, habm]

end Md2Pdf
